import Mathlib

set_option exponentiation.threshold 4096

/-!
# Lesson booking application: API service and cart/checkout controller

A shallow embedding of `express.app/server.js` (the REST handlers over the
`lessons` and `orders` collections) and of `vue.js/app.js` (the client state
with its `addToCart`, `removeFromCart` and `checkout` methods), followed by the
properties proved about them.

Conventions of the embedding.

* A JavaScript number is an IEEE double. Prices and totals are arbitrary
  doubles (`JsNumber`). Availabilities and availability changes are
  integer-valued finite doubles and are given by their integer value; the sum
  computed by the server is rounded to the nearest double (`roundDouble`). On
  the client an availability only moves by one, which is exact below `2 ^ 53`.
  A number of a request body is the double that `express.json()` parsed. The
  two zeros are identified.
* A collection is the list of its documents in insertion order; generated ids
  are natural numbers handed out by a counter.
* An `async` handler is modelled by the sequential composition of its steps.
  Outcomes of the network and of the store are explicit arguments.
-/

namespace LessonApp

/-! ## Values shared by both tiers -/

/-- Number of binary digits of `n`, by halving the search range `levels` times;
exact for `n < 2 ^ (2 ^ levels)`. -/
def bitLengthAux : Nat → Nat → Nat
  | 0, n => if n = 0 then 0 else 1
  | levels + 1, n =>
    if n < 2 ^ (2 ^ levels) then bitLengthAux levels n
    else 2 ^ levels + bitLengthAux levels (n / 2 ^ (2 ^ levels))

/-- Number of binary digits of `n`, for `n < 2 ^ 4096`; this covers every
magnitude of a double counted in units of `2 ^ (-1074)`. -/
def bitLength (n : Nat) : Nat := bitLengthAux 12 n

/-- Rounding of a magnitude to 53 significant binary digits, to nearest with
ties to even: the rounding of IEEE double arithmetic, whatever power of two
the unit of `n` is. -/
def roundNat (n : Nat) : Nat :=
  if n < 2 ^ 53 then n
  else
    let e := bitLength n - 53
    let q := n / 2 ^ e
    let r := n % 2 ^ e
    if 2 * r < 2 ^ e then q * 2 ^ e
    else if 2 ^ e < 2 * r then (q + 1) * 2 ^ e
    else if q % 2 = 0 then q * 2 ^ e
    else (q + 1) * 2 ^ e

/-- The nearest double of an integer (in any power-of-two unit). -/
def roundDouble (n : Int) : Int := n.sign * (roundNat n.natAbs : Int)

/-- A JavaScript number. `finite k` is the double `k * 2 ^ (-1074)`: every
finite double is an integer multiple of the smallest positive one. -/
inductive JsNumber where
  | finite (k : Int)
  | infinity (negative : Bool)
  | nan
  deriving DecidableEq, Repr

/-- The number with integer value `n`. -/
def JsNumber.ofInt (n : Int) : JsNumber := .finite (n * (2 ^ 1074 : Nat))

/-- The number `m / 2 ^ e`, for `e <= 1074`. -/
def JsNumber.ofBinary (m : Int) (e : Nat) : JsNumber :=
  .finite (m * (2 ^ (1074 - e) : Nat))

/-- Whether a value of `JsNumber` is a double: a finite one has at most 53
significant binary digits and lies below `2 ^ 1024`. -/
def JsNumber.isDouble : JsNumber → Bool
  | .finite k => roundNat k.natAbs == k.natAbs && decide (k.natAbs < 2 ^ 2098)
  | _ => true

/-- The operator `+` on numbers: the exact sum rounded to the nearest double,
an infinity when the rounded sum reaches `2 ^ 1024`. -/
def JsNumber.add : JsNumber → JsNumber → JsNumber
  | .finite a, .finite b =>
    let r := roundDouble (a + b)
    if r.natAbs < 2 ^ 2098 then .finite r else .infinity (decide (r < 0))
  | .nan, _ => .nan
  | _, .nan => .nan
  | .infinity s, .infinity t => if s = t then .infinity s else .nan
  | .infinity s, .finite _ => .infinity s
  | .finite _, .infinity s => .infinity s

/-- One line item of an order: the snapshot `{ _id, subject, location, price }`
built by `checkout`. -/
structure LineItem where
  _id : String
  subject : String
  location : String
  price : JsNumber
  deriving DecidableEq, Repr

/-- A value of a JSON request body as the handlers inspect it. Array elements
are line items; `obj` stands for any non-array object. -/
inductive JsValue where
  | undefined
  | null
  | bool (b : Bool)
  | num (n : Int)
  | str (s : String)
  | arr (items : List LineItem)
  | obj
  deriving DecidableEq, Repr

/-- JavaScript truthiness, the meaning of `!x` being false. -/
def JsValue.truthy : JsValue → Bool
  | .undefined => false
  | .null => false
  | .bool b => b
  | .num n => n != 0
  | .str s => s != ""
  | .arr _ => true
  | .obj => true

/-- The test `Array.isArray(x)`. -/
def JsValue.isArray : JsValue → Bool
  | .arr _ => true
  | _ => false

/-- The property `length` of an array; the handlers read it only behind
`Array.isArray`. -/
def JsValue.length : JsValue → Nat
  | .arr items => items.length
  | _ => 0

/-- Leading decimal digit of a natural number, by repeated division; the first
argument bounds the number of divisions. -/
def leadingDigitAux : Nat → Nat → Nat
  | 0, n => n
  | fuel + 1, n => if n < 10 then n else leadingDigitAux fuel (n / 10)

/-- Leading decimal digit of a natural number. -/
def leadingDigit (n : Nat) : Nat := leadingDigitAux n n

/-- Number of decimal digits of a natural number; the first argument bounds
the number of divisions. -/
def decimalLengthAux : Nat → Nat → Nat
  | 0, _ => 1
  | fuel + 1, n => if n < 10 then 1 else decimalLengthAux fuel (n / 10) + 1

/-- Number of decimal digits of a natural number. -/
def decimalLength (n : Nat) : Nat := decimalLengthAux n n

/-- Search for the decimal `s * 10 ^ e` with the fewest digits `s` that rounds
to the double `x`, from the largest exponent `e` downwards. At each exponent the
two multiples of `10 ^ e` around `x` are tried, the closer one winning. -/
def shortestDecimalAux (x : Nat) : Nat → Nat → Nat
  | 0, _ => x
  | fuel + 1, e =>
    let lower := x / 10 ^ e * 10 ^ e
    let upper := lower + 10 ^ e
    if roundNat lower = x then
      if roundNat upper = x ∧ upper - x < x - lower then upper else lower
    else if roundNat upper = x then upper
    else shortestDecimalAux x fuel (e - 1)

/-- The value whose digits `Number::toString` prints for the integer-valued
double `x`: the shortest decimal that reads back as `x`. -/
def shortestDecimal (x : Nat) : Nat :=
  shortestDecimalAux x (decimalLength x) (decimalLength x - 1)

/-- The builtin `parseInt` applied to an integer-valued finite double.
`parseInt` converts its argument to a string and reads the longest prefix made
of a sign and decimal digits. Below `10 ^ 21` in magnitude the string is a plain
decimal numeral that reads back as the number. From `10 ^ 21` on the string is
the shortest decimal in exponent form (`1e+21`, `-2.5e+22`), so only the sign
and the leading digit are read. -/
def parseInt (n : Int) : Int :=
  if n.natAbs < 10 ^ 21 then n
  else n.sign * (leadingDigit (shortestDecimal n.natAbs) : Int)

/-- The builtin `parseFloat` applied to a number: the string form of the number
is read back unchanged. -/
def parseFloat (x : JsNumber) : JsNumber := x

/-! ## API service (`express.app/server.js`) -/

namespace Server

/-- A document of the `lessons` collection. -/
structure Lesson where
  _id : Nat
  subject : JsValue
  location : JsValue
  price : JsNumber
  availability : Int
  createdAt : Nat
  deriving DecidableEq, Repr

/-- A document of the `orders` collection; `total` is `none` for `NaN`, the
value of `parseFloat(undefined)`. -/
structure Order where
  _id : Nat
  name : JsValue
  phone : JsValue
  lessons : JsValue
  total : Option JsNumber
  createdAt : Nat
  deriving DecidableEq, Repr

/-- The database `lessondb`: its two collections and the id generator. -/
structure Db where
  lessons : List Lesson
  orders : List Order
  nextId : Nat
  deriving DecidableEq, Repr

/-- Body of a response. -/
inductive Body where
  | lesson (doc : Option Lesson)
  | order (doc : Option Order)
  | error (msg : String)
  deriving DecidableEq, Repr

/-- A response: status code and JSON body. -/
structure Response where
  status : Nat
  body : Body
  deriving DecidableEq, Repr

/-- The query `collection('lessons').findOne({ _id })`. -/
def findLesson (docs : List Lesson) (id : Nat) : Option Lesson :=
  docs.find? (fun d => d._id == id)

/-- The query `collection('orders').findOne({ _id })`. -/
def findOrder (docs : List Order) (id : Nat) : Option Order :=
  docs.find? (fun d => d._id == id)

/-- The update `updateOne({ _id }, { $set: { availability } })`: the first
document with that id gets the new availability. -/
def setAvailability : List Lesson → Nat → Int → List Lesson
  | [], _, _ => []
  | d :: ds, id, v =>
    if d._id == id then { d with availability := v } :: ds
    else d :: setAvailability ds id v

/-- The sample lessons of `initializeCollections`:
subject, location, price, availability. -/
def sampleLessons : List (String × String × Int × Int) :=
  [("Mathematics", "London", 25, 5),
   ("English", "Manchester", 20, 3),
   ("Science", "Birmingham", 30, 8),
   ("History", "Liverpool", 22, 2),
   ("Geography", "Leeds", 18, 6),
   ("Art", "Bristol", 28, 4),
   ("Music", "Edinburgh", 35, 3),
   ("Physics", "Glasgow", 32, 7),
   ("Chemistry", "Cardiff", 29, 5),
   ("Biology", "Belfast", 27, 4)]

/-- The call `insertMany(sampleLessons)`: documents get consecutive ids. -/
def insertSamples (now : Nat) : List (String × String × Int × Int) → Nat → List Lesson
  | [], _ => []
  | (subject, location, price, availability) :: rest, id =>
    { _id := id, subject := .str subject, location := .str location,
      price := .ofInt price, availability := availability, createdAt := now } ::
      insertSamples now rest (id + 1)

/-- The function `initializeCollections`: seeds the lessons collection when it
is empty. -/
def initializeCollections (now : Nat) (db : Db) : Db :=
  if db.lessons.length = 0 then
    { db with
      lessons := db.lessons ++ insertSamples now sampleLessons db.nextId
      nextId := db.nextId + sampleLessons.length }
  else db

/-- The empty database. -/
def emptyDb : Db := { lessons := [], orders := [], nextId := 0 }

/-- The lesson store right after start-up on an empty database. -/
def seededDb (now : Nat) : Db := initializeCollections now emptyDb

/-- Request body of `POST /api/lessons`. -/
structure LessonPayload where
  subject : JsValue
  location : JsValue
  price : Option JsNumber
  availability : Option Int
  deriving DecidableEq, Repr

/-- The handler `app.post('/api/lessons')`. The body fields `price` and
`availability` are `none` when `=== undefined`. With `storeUp = false` the store
throws and the `catch` branch answers 500. -/
def postLesson (storeUp : Bool) (now : Nat) (db : Db) (body : LessonPayload) : Response × Db :=
  match body.price, body.availability with
  | some price, some availability =>
    if !body.subject.truthy || !body.location.truthy then
      (⟨400, .error "Missing required fields"⟩, db)
    else if storeUp then
      let newLesson : Lesson :=
        { _id := db.nextId, subject := body.subject, location := body.location,
          price := parseFloat price, availability := parseInt availability, createdAt := now }
      let db1 : Db := { db with lessons := db.lessons ++ [newLesson], nextId := db.nextId + 1 }
      (⟨201, .lesson (findLesson db1.lessons newLesson._id)⟩, db1)
    else (⟨500, .error "Failed to create lesson"⟩, db)
  | _, _ => (⟨400, .error "Missing required fields"⟩, db)

/-- The handler `app.put('/api/lessons/:id/availability')`. The path parameter
is `none` when `new ObjectId(req.params.id)` throws. -/
def putAvailability (storeUp : Bool) (db : Db) (id : Option Nat) (change : Option Int) :
    Response × Db :=
  match change with
  | none => (⟨400, .error "Change value is required"⟩, db)
  | some change =>
    match storeUp, id with
    | true, some id =>
      match findLesson db.lessons id with
      | none => (⟨404, .error "Lesson not found"⟩, db)
      | some lesson =>
        let newAvailability := max 0 (roundDouble (lesson.availability + parseInt change))
        let db1 : Db := { db with lessons := setAvailability db.lessons id newAvailability }
        (⟨200, .lesson (findLesson db1.lessons id)⟩, db1)
    | _, _ => (⟨500, .error "Failed to update lesson availability"⟩, db)

/-- Request body of `POST /api/orders`. -/
structure OrderPayload where
  name : JsValue
  phone : JsValue
  lessons : JsValue
  total : Option JsNumber
  deriving DecidableEq, Repr

/-- The handler `app.post('/api/orders')`. With `storeUp = false` the store
throws and the `catch` branch answers 500. -/
def postOrder (storeUp : Bool) (now : Nat) (db : Db) (body : OrderPayload) : Response × Db :=
  if !body.name.truthy || !body.phone.truthy || !body.lessons.truthy
      || !body.lessons.isArray || body.lessons.length = 0 then
    (⟨400, .error "Missing required fields"⟩, db)
  else if storeUp then
    let newOrder : Order :=
      { _id := db.nextId, name := body.name, phone := body.phone, lessons := body.lessons,
        total := body.total.map parseFloat, createdAt := now }
    let db1 : Db := { db with orders := db.orders ++ [newOrder], nextId := db.nextId + 1 }
    (⟨201, .order (findOrder db1.orders newOrder._id)⟩, db1)
  else (⟨500, .error "Failed to create order"⟩, db)

/-- A request to the lesson store. -/
inductive LessonOp where
  | create (now : Nat) (body : LessonPayload)
  | adjust (id : Option Nat) (change : Int)
  deriving DecidableEq, Repr

/-- The store after one request. -/
def applyOp (db : Db) : LessonOp → Db
  | .create now body => (postLesson true now db body).2
  | .adjust id change => (putAvailability true db id (some change)).2

/-- The store after a sequence of requests. -/
def applyOps (db : Db) (ops : List LessonOp) : Db := ops.foldl applyOp db

/-- Every stored lesson has a non-negative availability. -/
def AvailabilityNonneg (db : Db) : Prop := ∀ d ∈ db.lessons, 0 ≤ d.availability

/-- The seeded document "Mathematics": id 0, availability 5. -/
def mathematics : Lesson :=
  { _id := 0, subject := .str "Mathematics", location := .str "London",
    price := .ofInt 25, availability := 5, createdAt := 0 }

/-- A lesson payload with every field present and availability `-5`. -/
def negativePayload : LessonPayload :=
  { subject := .str "Latin", location := .str "Oxford", price := some (.ofInt 40),
    availability := some (-5) }

/-- A lesson payload with every field present and availability `0`. -/
def zeroPayload : LessonPayload :=
  { subject := .str "Latin", location := .str "Oxford", price := some (.ofInt 40),
    availability := some 0 }

/-- An order payload with one line item, a phone number and the empty string
as name. -/
def emptyNamePayload : OrderPayload :=
  { name := .str "", phone := .str "07700900123",
    lessons := .arr
      [{ _id := "1", subject := "Mathematics", location := "London", price := .ofInt 25 }],
    total := some (.ofInt 25) }

/-- An order payload with name, phone and one line item. -/
def goodPayload : OrderPayload :=
  { emptyNamePayload with name := .str "Ada" }

end Server

/-! ## Cart and checkout controller (`vue.js/app.js`) -/

namespace Client

/-- A lesson as the client holds it, in `lessons` and in `cartItems`. -/
structure Lesson where
  _id : String
  subject : String
  location : String
  price : JsNumber
  availability : Int
  createdAt : Option Nat
  deriving DecidableEq, Repr

/-- An order as returned by the API. -/
structure Order where
  _id : String
  name : String
  phone : String
  lessons : List LineItem
  total : JsNumber
  createdAt : Nat
  deriving DecidableEq, Repr

/-- The draft `orderForm`. -/
structure OrderForm where
  name : String
  phone : String
  deriving DecidableEq, Repr

/-- The component state returned by `data()`. -/
structure State where
  currentView : String
  lessons : List Lesson
  cartItems : List Lesson
  orders : List Order
  searchQuery : String
  sortBy : String
  sortOrder : String
  orderForm : OrderForm
  apiBaseUrl : String
  deriving DecidableEq, Repr

/-- The initial state, `data()`. -/
def data : State :=
  { currentView := "lessons", lessons := [], cartItems := [], orders := [],
    searchQuery := "", sortBy := "subject", sortOrder := "asc",
    orderForm := { name := "", phone := "" },
    apiBaseUrl := "https://your-api-url.com/api" }

/-- The array method `findIndex`; `none` stands for `-1`. -/
def findIndex {α : Type} (p : α → Bool) : List α → Option Nat
  | [] => none
  | x :: xs => if p x then some 0 else (findIndex p xs).map (fun i => i + 1)

/-- The computed property `cartTotal`: the prices are added from the left,
starting from the number 0, each addition being one of doubles. -/
def cartTotal (s : State) : JsNumber :=
  s.cartItems.foldl (fun total item => total.add item.price) (JsNumber.ofInt 0)

/-- The method `addToCart`. -/
def addToCart (s : State) (lesson : Lesson) : State :=
  if lesson.availability > 0 then
    match s.cartItems.find? (fun item => item._id == lesson._id) with
    | none =>
      let cartItems := s.cartItems ++ [lesson]
      match findIndex (fun l => l._id == lesson._id) s.lessons with
      | some lessonIndex =>
        { s with
          cartItems := cartItems
          lessons := s.lessons.modify
            (fun l => { l with availability := l.availability - 1 }) lessonIndex }
      | none => { s with cartItems := cartItems }
    | some _ => s
  else s

/-- The method `removeFromCart`. -/
def removeFromCart (s : State) (lessonId : String) : State :=
  match findIndex (fun item => item._id == lessonId) s.cartItems with
  | some itemIndex =>
    let lessons :=
      match findIndex (fun l => l._id == lessonId) s.lessons with
      | some lessonIndex =>
        s.lessons.modify (fun l => { l with availability := l.availability + 1 }) lessonIndex
      | none => s.lessons
    { s with lessons := lessons, cartItems := s.cartItems.eraseIdx itemIndex }
  | none => s

/-- The object `orderData` sent by `checkout`. -/
structure OrderData where
  name : String
  phone : String
  lessons : List LineItem
  total : JsNumber
  deriving DecidableEq, Repr

/-- A `fetch` call that changes the server. -/
inductive Request where
  | postOrder (body : OrderData)
  | putAvailability (lessonId : String) (change : Int)
  deriving DecidableEq, Repr

/-- Outcome of an awaited `fetch`: the promise rejects, or a response arrives
with its `ok` flag and, when the body parses as JSON, the parsed value. -/
inductive FetchResult (β : Type) where
  | networkError
  | response (ok : Bool) (json : Option β)
  deriving DecidableEq, Repr

/-- What a method does besides changing the state: requests sent, console
errors and alerts, each in order of occurrence. -/
structure Effects where
  requests : List Request
  console : List String
  alerts : List String
  deriving DecidableEq, Repr

/-- No effect. -/
def Effects.none : Effects := { requests := [], console := [], alerts := [] }

/-- The method `updateLessonAvailability`: one PUT; a rejected `fetch` is
logged, any response is ignored. -/
def updateLessonAvailability (result : FetchResult Lesson) (lessonId : String) (change : Int)
    (fx : Effects) : Effects :=
  let fx1 := { fx with requests := fx.requests ++ [Request.putAvailability lessonId change] }
  match result with
  | .networkError =>
    { fx1 with console := fx1.console ++ ["Error updating lesson availability:"] }
  | .response _ _ => fx1

/-- The loop `for (const item of this.cartItems)` of `checkout`; `k` counts the
calls made so far and `net k` is the outcome of call `k`. -/
def updateAll (net : Nat → FetchResult Lesson) : List Lesson → Nat → Effects → Effects
  | [], _, fx => fx
  | item :: rest, k, fx =>
    updateAll net rest (k + 1) (updateLessonAvailability (net k) item._id (-1) fx)

/-- The object `orderData` built at the start of `checkout`. -/
def orderData (s : State) : OrderData :=
  { name := s.orderForm.name
    phone := s.orderForm.phone
    lessons := s.cartItems.map (fun item =>
      { _id := item._id, subject := item.subject, location := item.location,
        price := item.price })
    total := cartTotal s }

/-- The method `checkout`; `post` is the outcome of the order POST and `net`
gives the outcomes of the availability calls. -/
def checkout (post : FetchResult Order) (net : Nat → FetchResult Lesson) (s : State) :
    State × Effects :=
  if s.cartItems.length = 0 then (s, Effects.none)
  else
    let fx0 : Effects := { Effects.none with requests := [Request.postOrder (orderData s)] }
    let failed : State × Effects :=
      (s, { fx0 with
            console := fx0.console ++ ["Error placing order:"]
            alerts := fx0.alerts ++ ["Error placing order. Please try again."] })
    match post with
    | .networkError => failed
    | .response false _ =>
      (s, { fx0 with alerts := fx0.alerts ++ ["Failed to place order. Please try again."] })
    | .response true none => failed
    | .response true (some newOrder) =>
      let s1 := { s with orders := newOrder :: s.orders }
      let fx1 := updateAll net s1.cartItems 0 fx0
      let s2 := { s1 with cartItems := [], orderForm := { name := "", phone := "" } }
      ({ s2 with currentView := "orders" },
       { fx1 with alerts := fx1.alerts ++ ["Order placed successfully!"] })

/-- A user action on the cart. -/
inductive CartOp where
  | add (lesson : Lesson)
  | remove (lessonId : String)
  deriving DecidableEq, Repr

/-- The state after one cart action. -/
def applyCartOp (s : State) : CartOp → State
  | .add lesson => addToCart s lesson
  | .remove lessonId => removeFromCart s lessonId

/-- The state after a sequence of cart actions. -/
def applyCartOps (s : State) (ops : List CartOp) : State := ops.foldl applyCartOp s

/-- Local availability of the lesson with the given id: that of the first entry
of `lessons` with this id, if any. -/
def localAvailability (s : State) (lessonId : String) : Option Int :=
  (s.lessons.find? (fun l => l._id == lessonId)).map (fun l => l.availability)

/-- The mock lesson "Mathematics": id `1`, price 25, availability 5. -/
def maths : Lesson :=
  { _id := "1", subject := "Mathematics", location := "London", price := .ofInt 25,
    availability := 5, createdAt := none }

/-- The mock lesson "English": id `2`, price 20, availability 5. -/
def english : Lesson :=
  { _id := "2", subject := "English", location := "Manchester", price := .ofInt 20,
    availability := 5, createdAt := none }

/-- The lesson "Mathematics" with no place left. -/
def soldOut : Lesson := { maths with availability := 0 }

/-- A state with two lessons loaded and an empty cart. -/
def catalog : State := { data with lessons := [maths, english] }

/-- A state with a filled form and both lessons in the cart, as left by two
calls of `addToCart` on `catalog`. -/
def twoInCart : State :=
  { addToCart (addToCart catalog maths) english with
    orderForm := { name := "Ada", phone := "07700900123" } }

/-- A lesson priced `2 ^ 53`. -/
def masterclass : Lesson :=
  { _id := "3", subject := "Masterclass", location := "London",
    price := .ofInt (2 ^ 53), availability := 2, createdAt := none }

/-- A lesson priced 1. -/
def taster : Lesson :=
  { _id := "4", subject := "Taster", location := "Leeds", price := .ofInt 1,
    availability := 2, createdAt := none }

/-- The cart after adding the lesson priced `2 ^ 53` and then the lesson
priced 1. -/
def costlyCart : State :=
  addToCart (addToCart { data with lessons := [masterclass, taster] } masterclass) taster

/-- Three lessons priced 0.1, 0.2 and 0.3, that is the doubles
`3602879701896397 / 2 ^ 55`, `3602879701896397 / 2 ^ 54` and
`5404319552844595 / 2 ^ 54`. -/
def pennyLessons : List Lesson :=
  [{ _id := "5", subject := "Chess", location := "Bath",
     price := .ofBinary 3602879701896397 55, availability := 1, createdAt := none },
   { _id := "6", subject := "Drama", location := "York",
     price := .ofBinary 3602879701896397 54, availability := 1, createdAt := none },
   { _id := "7", subject := "Dance", location := "Hull",
     price := .ofBinary 5404319552844595 54, availability := 1, createdAt := none }]

/-- The cart holding the three lessons of `pennyLessons`, in this order. -/
def pennyCart : State :=
  applyCartOps { data with lessons := pennyLessons } (pennyLessons.map CartOp.add)

/-- The order document answered for the cart of `twoInCart`. -/
def receipt : Order :=
  { _id := "a1", name := "Ada", phone := "07700900123",
    lessons := (orderData twoInCart).lessons, total := .ofInt 45, createdAt := 7 }

/-- Availability calls of which the first is rejected by the network and the
others are answered with an error status. -/
def flakyNet : Nat → FetchResult Lesson
  | 0 => .networkError
  | _ => .response false none

end Client

end LessonApp

/-! ## Properties of the number model and of the API service -/

namespace LessonApp

theorem bitLengthAux_pos (levels n : Nat) (h : n ≠ 0) :
    ∃ b, bitLengthAux levels n = b + 1 ∧ 2 ^ b ≤ n := by
  induction levels generalizing n with
  | zero => exact ⟨0, by simp [bitLengthAux, h], by omega⟩
  | succ k ih =>
    unfold bitLengthAux
    split
    · exact ih n h
    · rename_i hge
      have hpos : 0 < 2 ^ 2 ^ k := Nat.two_pow_pos _
      have hq : n / 2 ^ 2 ^ k ≠ 0 := by
        have := Nat.div_pos (Nat.le_of_not_lt hge) hpos
        omega
      obtain ⟨b, hb, hle⟩ := ih (n / 2 ^ 2 ^ k) hq
      refine ⟨2 ^ k + b, by rw [hb]; omega, ?_⟩
      calc 2 ^ (2 ^ k + b) = 2 ^ 2 ^ k * 2 ^ b := by rw [Nat.pow_add]
        _ ≤ 2 ^ 2 ^ k * (n / 2 ^ 2 ^ k) := Nat.mul_le_mul_left _ hle
        _ ≤ n := Nat.mul_div_le n _

theorem roundNat_mul_two_pow (n j : Nat) (h : n < 2 ^ 53) :
    roundNat (n * 2 ^ j) = n * 2 ^ j := by
  unfold roundNat
  split
  · rfl
  · rename_i hge
    have hm : n * 2 ^ j ≠ 0 := by
      intro h0
      rw [h0] at hge
      exact hge (Nat.two_pow_pos _)
    obtain ⟨b, hb, hle⟩ := bitLengthAux_pos 12 (n * 2 ^ j) hm
    have hlt : n * 2 ^ j < 2 ^ (53 + j) := by
      rw [Nat.pow_add]
      exact Nat.mul_lt_mul_of_pos_right h (Nat.two_pow_pos _)
    have hb53 : b < 53 + j := by
      by_contra hcon
      have : 2 ^ (53 + j) ≤ 2 ^ b := Nat.pow_le_pow_right (by decide) (by omega)
      omega
    have he : bitLength (n * 2 ^ j) - 53 ≤ j := by
      unfold bitLength
      rw [hb]
      omega
    have hdvd : 2 ^ (bitLength (n * 2 ^ j) - 53) ∣ n * 2 ^ j :=
      Dvd.dvd.mul_left (Nat.pow_dvd_pow 2 he) n
    simp only [Nat.mod_eq_zero_of_dvd hdvd, Nat.mul_zero]
    rw [if_pos (Nat.two_pow_pos _)]
    exact Nat.div_mul_cancel hdvd

theorem roundDouble_mul_two_pow (n : Int) (j : Nat) (h : n.natAbs < 2 ^ 53) :
    roundDouble (n * (2 ^ j : Nat)) = n * (2 ^ j : Nat) := by
  unfold roundDouble
  have habs : (n * ((2 ^ j : Nat) : Int)).natAbs = n.natAbs * 2 ^ j := by
    rw [Int.natAbs_mul, Int.natAbs_ofNat]
  have hsign : (n * ((2 ^ j : Nat) : Int)).sign = n.sign := by
    have hp : (0 : Int) < ((2 ^ j : Nat) : Int) := by exact_mod_cast Nat.two_pow_pos j
    rw [Int.sign_mul, Int.sign_eq_one_of_pos hp, mul_one]
  rw [habs, hsign, roundNat_mul_two_pow _ _ h, Nat.cast_mul, ← mul_assoc,
    Int.sign_mul_natAbs]

theorem roundDouble_of_natAbs_lt (n : Int) (h : n.natAbs < 2 ^ 53) : roundDouble n = n := by
  simpa using roundDouble_mul_two_pow n 0 h

theorem JsNumber.add_ofInt (a b : Int) (h : (a + b).natAbs < 2 ^ 53) :
    (JsNumber.ofInt a).add (JsNumber.ofInt b) = JsNumber.ofInt (a + b) := by
  have hsum : a * ((2 ^ 1074 : Nat) : Int) + b * ((2 ^ 1074 : Nat) : Int) =
      (a + b) * ((2 ^ 1074 : Nat) : Int) := by ring
  have hbound : ((a + b) * ((2 ^ 1074 : Nat) : Int)).natAbs < 2 ^ 2098 := by
    rw [Int.natAbs_mul, Int.natAbs_ofNat]
    calc (a + b).natAbs * 2 ^ 1074 < 2 ^ 53 * 2 ^ 1074 :=
          Nat.mul_lt_mul_of_pos_right h (Nat.two_pow_pos _)
      _ ≤ 2 ^ 2098 := by rw [← Nat.pow_add]; exact Nat.pow_le_pow_right (by decide) (by decide)
  simp only [JsNumber.ofInt, JsNumber.add, hsum, roundDouble_mul_two_pow _ _ h, if_pos hbound]

theorem JsNumber.foldl_add_ofInt (prices : List Int) (acc : Int)
    (h : ∀ i, i ≤ prices.length → (acc + (prices.take i).sum).natAbs < 2 ^ 53) :
    (prices.map JsNumber.ofInt).foldl JsNumber.add (JsNumber.ofInt acc) =
      JsNumber.ofInt (acc + prices.sum) := by
  induction prices generalizing acc with
  | nil => simp
  | cons p rest ih =>
    have h1 := h 1 (by simp)
    simp only [List.take_succ_cons, List.take_zero, List.sum_cons, List.sum_nil, add_zero] at h1
    rw [List.map_cons, List.foldl_cons, JsNumber.add_ofInt acc p h1, ih (acc + p)]
    · rw [List.sum_cons, add_assoc]
    · intro i hi
      have := h (i + 1) (by simpa using hi)
      simpa [List.take_succ_cons, add_assoc] using this

theorem JsNumber.ofInt_zero_add (x : JsNumber) (h : x.isDouble = true) :
    (JsNumber.ofInt 0).add x = x := by
  cases x with
  | finite k =>
    simp only [JsNumber.isDouble, Bool.and_eq_true, beq_iff_eq, decide_eq_true_eq] at h
    have hr : roundDouble k = k := by
      unfold roundDouble
      rw [h.1, Int.sign_mul_natAbs]
    simp only [JsNumber.ofInt, JsNumber.add, zero_mul, zero_add, hr, if_pos h.2]
  | infinity s => rfl
  | nan => rfl

/-- The number model on known values: `5 + 2 ^ 53` rounds to 9007199254740996,
`10 ^ 23` to 99999999999999991611392, which prints as `1e+23`;
`1 + 2 ^ 53` is `2 ^ 53`; 0.1 + 0.2 is `5404319552844596 / 2 ^ 54`, printed as
0.30000000000000004; the largest double plus `2 ^ 970` is `Infinity`. -/
theorem number_model_samples :
    roundDouble (5 + 2 ^ 53) = 9007199254740996 ∧
    roundDouble (10 ^ 23) = 99999999999999991611392 ∧
    shortestDecimal 99999999999999991611392 = 10 ^ 23 ∧
    parseInt (-99999999999999991611392) = -1 ∧
    parseInt 24999999999999997902848 = 2 ∧
    parseInt (2 ^ 60) = 2 ^ 60 ∧
    (JsNumber.ofInt 1).add (JsNumber.ofInt (2 ^ 53)) = JsNumber.ofInt (2 ^ 53) ∧
    (JsNumber.ofBinary 3602879701896397 55).add (JsNumber.ofBinary 3602879701896397 54) =
      JsNumber.ofBinary 5404319552844596 54 ∧
    (JsNumber.finite (((2 ^ 53 - 1) * 2 ^ 2045 : Nat) : Int)).add
        (JsNumber.finite ((2 ^ 2044 : Nat) : Int)) = JsNumber.infinity false := by
  decide

theorem parseInt_of_natAbs_lt (n : Int) (h : n.natAbs < 10 ^ 21) : parseInt n = n := by
  unfold parseInt
  rw [if_pos h]

theorem parseInt_nonneg (n : Int) (h : 0 ≤ n) : 0 ≤ parseInt n := by
  unfold parseInt
  split
  · exact h
  · exact mul_nonneg (Int.sign_nonneg.mpr h) (Int.ofNat_nonneg _)

namespace Server

theorem findLesson_setAvailability (docs : List Lesson) (id : Nat) (v : Int) (lesson : Lesson)
    (h : findLesson docs id = some lesson) :
    findLesson (setAvailability docs id v) id = some { lesson with availability := v } := by
  induction docs with
  | nil => simp [findLesson] at h
  | cons d ds ih =>
    unfold findLesson at h ih ⊢
    by_cases hd : d._id = id
    · rw [List.find?_cons_of_pos _ (by simpa using hd)] at h
      cases h
      simp [setAvailability, hd]
    · rw [List.find?_cons_of_neg _ (by simpa using hd)] at h
      simp only [setAvailability, beq_iff_eq, hd, if_false]
      rw [List.find?_cons_of_neg _ (by simpa using hd)]
      exact ih h

theorem mem_setAvailability (docs : List Lesson) (id : Nat) (v : Int) (d : Lesson)
    (h : d ∈ setAvailability docs id v) : d ∈ docs ∨ d.availability = v := by
  induction docs with
  | nil => simp [setAvailability] at h
  | cons x xs ih =>
    by_cases hx : x._id = id
    · simp [setAvailability, hx] at h
      rcases h with h | h
      · right; rw [h]
      · left; exact List.mem_cons_of_mem _ h
    · simp [setAvailability, hx] at h
      rcases h with h | h
      · left; rw [h]; exact List.mem_cons_self _ _
      · rcases ih h with h1 | h1
        · left; exact List.mem_cons_of_mem _ h1
        · right; exact h1

theorem seededDb_nonneg (now : Nat) : AvailabilityNonneg (seededDb now) := by
  intro d hd
  simp [seededDb, initializeCollections, emptyDb, sampleLessons, insertSamples] at hd
  rcases hd with h | h | h | h | h | h | h | h | h | h <;> (rw [h]; simp)

theorem putAvailability_nonneg (db : Db) (id : Option Nat) (change : Int)
    (h : AvailabilityNonneg db) :
    AvailabilityNonneg (putAvailability true db id (some change)).2 := by
  unfold putAvailability
  cases id with
  | none => exact h
  | some id =>
    simp only
    cases hf : findLesson db.lessons id with
    | none => exact h
    | some lesson =>
      intro d hd
      rcases mem_setAvailability _ _ _ _ hd with h1 | h1
      · exact h d h1
      · rw [h1]; exact le_max_left _ _

theorem postLesson_nonneg (now : Nat) (db : Db) (body : LessonPayload)
    (h : AvailabilityNonneg db) (ha : ∀ a, body.availability = some a → 0 ≤ a) :
    AvailabilityNonneg (postLesson true now db body).2 := by
  unfold postLesson
  cases hp : body.price with
  | none => exact h
  | some price =>
    cases hv : body.availability with
    | none => exact h
    | some a =>
      simp only
      split
      · exact h
      · intro d hd
        simp at hd
        rcases hd with h1 | h1
        · exact h d h1
        · rw [h1]; exact parseInt_nonneg a (ha a hv)

/-- C1, as amended: for a stored lesson with availability `a` the PUT handler
answers 200 with the updated document, which is the stored one and has
availability `>= 0`; when the integer change `delta` and the sum `a + delta`
are below `2 ^ 53` in magnitude this availability is exactly
`max 0 (a + delta)`. -/
theorem putAvailability_clamps (db : Db) (id : Nat) (lesson : Lesson) (delta : Int)
    (h : findLesson db.lessons id = some lesson) :
    (∃ doc, (putAvailability true db (some id) (some delta)).1 = ⟨200, .lesson (some doc)⟩ ∧
        findLesson (putAvailability true db (some id) (some delta)).2.lessons id = some doc ∧
        0 ≤ doc.availability) ∧
    (delta.natAbs < 2 ^ 53 → (lesson.availability + delta).natAbs < 2 ^ 53 →
      (putAvailability true db (some id) (some delta)).1 =
          ⟨200, .lesson (some { lesson with
            availability := max 0 (lesson.availability + delta) })⟩ ∧
      findLesson (putAvailability true db (some id) (some delta)).2.lessons id =
          some { lesson with availability := max 0 (lesson.availability + delta) }) := by
  have key : (putAvailability true db (some id) (some delta)).1 =
        ⟨200, .lesson (some { lesson with
          availability := max 0 (roundDouble (lesson.availability + parseInt delta)) })⟩ ∧
      findLesson (putAvailability true db (some id) (some delta)).2.lessons id =
        some { lesson with
          availability := max 0 (roundDouble (lesson.availability + parseInt delta)) } := by
    have hs := findLesson_setAvailability db.lessons id
      (max 0 (roundDouble (lesson.availability + parseInt delta))) lesson h
    simp only [putAvailability, h]
    exact ⟨by rw [hs], hs⟩
  refine ⟨⟨_, key.1, key.2, le_max_left _ _⟩, ?_⟩
  intro hdelta hsum
  have hlt : delta.natAbs < 10 ^ 21 := lt_trans hdelta (by decide)
  rw [parseInt_of_natAbs_lt delta hlt, roundDouble_of_natAbs_lt _ hsum] at key
  exact key

/-- Witness for C1: on the seeded store, change `-3` on the lesson with
availability 5 returns availability 2, and a further change `-10` returns 0. -/
theorem putAvailability_clamps_witness :
    findLesson (seededDb 0).lessons 0 = some mathematics ∧
    (putAvailability true (seededDb 0) (some 0) (some (-3))).1 =
      ⟨200, .lesson (some { mathematics with availability := 2 })⟩ ∧
    (putAvailability true (putAvailability true (seededDb 0) (some 0) (some (-3))).2
        (some 0) (some (-10))).1 =
      ⟨200, .lesson (some { mathematics with availability := 0 })⟩ :=
  ⟨by decide,
   ((putAvailability_clamps (seededDb 0) 0 mathematics (-3) (by decide)).2
      (by decide) (by decide)).1,
   ((putAvailability_clamps (putAvailability true (seededDb 0) (some 0) (some (-3))).2 0
      { mathematics with availability := 2 } (-10) (by decide)).2 (by decide) (by decide)).1⟩

/-- Counterexample to C1 as stated, on the lesson with availability 5. With
change `2 ^ 53` the handler returns 9007199254740996, the double nearest to the
sum, whereas `max 0 (5 + 2 ^ 53)` is 9007199254740997. With change `-10 ^ 21`
the handler adds `parseInt(-1e21) = -1` and returns 4, whereas
`max 0 (5 - 10 ^ 21)` is 0. -/
theorem putAvailability_not_exact :
    findLesson (seededDb 0).lessons 0 = some mathematics ∧
    mathematics.availability = 5 ∧
    ((putAvailability true (seededDb 0) (some 0) (some (2 ^ 53))).1 =
        ⟨200, .lesson (some { mathematics with availability := 9007199254740996 })⟩ ∧
      max 0 (mathematics.availability + 2 ^ 53) = 9007199254740997) ∧
    ((putAvailability true (seededDb 0) (some 0) (some (-(10 ^ 21)))).1 =
        ⟨200, .lesson (some { mathematics with availability := 4 })⟩ ∧
      max 0 (mathematics.availability + -(10 ^ 21)) = 0) := by
  decide

/-- C5, as amended: the handler answers 400 and leaves the store unchanged
when name or phone is falsy (absent, null, false, 0 or the empty string) or
lessons is not a non-empty array; in every other case, the store working, it
answers 201 and appends exactly one order, built from the body, to the orders
collection. An empty array of line items is always rejected. -/
theorem postOrder_validation (now : Nat) (db : Db) (body : OrderPayload) :
    ((body.name.truthy = false ∨ body.phone.truthy = false ∨
        ¬ ∃ item rest, body.lessons = .arr (item :: rest)) →
      ∀ storeUp, postOrder storeUp now db body =
        (⟨400, .error "Missing required fields"⟩, db)) ∧
    ((body.name.truthy = true ∧ body.phone.truthy = true ∧
        ∃ item rest, body.lessons = .arr (item :: rest)) →
      (postOrder true now db body).1.status = 201 ∧
      (postOrder true now db body).2.lessons = db.lessons ∧
      (postOrder true now db body).2.orders = db.orders ++
        [{ _id := db.nextId, name := body.name, phone := body.phone, lessons := body.lessons,
           total := body.total, createdAt := now }]) ∧
    (body.lessons = .arr [] →
      ∀ storeUp, postOrder storeUp now db body =
        (⟨400, .error "Missing required fields"⟩, db)) := by
  refine ⟨?_, ?_, ?_⟩
  · intro h storeUp
    unfold postOrder
    rw [if_pos]
    rcases h with h | h | h
    · simp [h]
    · simp [h]
    · cases hl : body.lessons with
      | arr items =>
        cases items with
        | nil => simp [JsValue.length]
        | cons item rest => exact absurd ⟨item, rest, hl⟩ h
      | _ => simp [JsValue.isArray, JsValue.truthy]
  · rintro ⟨hn, hp, item, rest, hl⟩
    have htotal : body.total.map parseFloat = body.total := by
      cases body.total <;> rfl
    simp only [postOrder, hn, hp, hl, htotal]
    simp [JsValue.truthy, JsValue.isArray, JsValue.length]
  · intro hl storeUp
    simp [postOrder, hl, JsValue.length]

/-- Witness for C5: a body with name, phone and one line item is stored; the
same body with the name absent, or with an empty array of line items, is
rejected. -/
theorem postOrder_validation_witness :
    postOrder true 7 emptyDb { goodPayload with name := .undefined } =
      (⟨400, .error "Missing required fields"⟩, emptyDb) ∧
    ((postOrder true 7 emptyDb goodPayload).1.status = 201 ∧
      (postOrder true 7 emptyDb goodPayload).2.lessons = emptyDb.lessons ∧
      (postOrder true 7 emptyDb goodPayload).2.orders = emptyDb.orders ++
        [{ _id := emptyDb.nextId, name := goodPayload.name, phone := goodPayload.phone,
           lessons := goodPayload.lessons, total := goodPayload.total, createdAt := 7 }]) ∧
    postOrder true 7 emptyDb { goodPayload with lessons := .arr [] } =
      (⟨400, .error "Missing required fields"⟩, emptyDb) :=
  ⟨(postOrder_validation 7 emptyDb { goodPayload with name := .undefined }).1
      (Or.inl rfl) true,
   (postOrder_validation 7 emptyDb goodPayload).2.1 ⟨by decide, by decide, _, _, rfl⟩,
   (postOrder_validation 7 emptyDb { goodPayload with lessons := .arr [] }).2.2 rfl true⟩

/-- Counterexample to C5 as stated: name is present (the empty string), phone
is present and lessons is a non-empty array, yet the handler answers 400 and
stores nothing. -/
theorem postOrder_empty_name_rejected :
    emptyNamePayload.name = .str "" ∧
    emptyNamePayload.phone = .str "07700900123" ∧
    emptyNamePayload.lessons.isArray = true ∧
    emptyNamePayload.lessons.length = 1 ∧
    postOrder true 7 emptyDb emptyNamePayload =
      (⟨400, .error "Missing required fields"⟩, emptyDb) := by
  decide

/-- C6, as amended: starting from the seeded lesson collection, after every
sequence of create-lesson requests whose availability, when present, is a
non-negative integer, and of adjust-availability requests with any integer
change, every stored lesson has availability `>= 0`. -/
theorem availability_never_negative (now : Nat) (ops : List LessonOp)
    (h : ∀ t body a, LessonOp.create t body ∈ ops → body.availability = some a → 0 ≤ a) :
    ∀ d ∈ (applyOps (seededDb now) ops).lessons, 0 ≤ d.availability := by
  have gen : ∀ (ops : List LessonOp) (db : Db), AvailabilityNonneg db →
      (∀ t body a, LessonOp.create t body ∈ ops → body.availability = some a → 0 ≤ a) →
      AvailabilityNonneg (applyOps db ops) := by
    intro ops
    induction ops with
    | nil => intro db hdb _; exact hdb
    | cons op rest ih =>
      intro db hdb hops
      have hrest : ∀ t body a, LessonOp.create t body ∈ rest →
          body.availability = some a → 0 ≤ a :=
        fun t body a hm => hops t body a (List.mem_cons_of_mem _ hm)
      have hstep : AvailabilityNonneg (applyOp db op) := by
        cases op with
        | create t body =>
          exact postLesson_nonneg t db body hdb
            (fun a ha => hops t body a (List.mem_cons_self _ _) ha)
        | adjust id change => exact putAvailability_nonneg db id change hdb
      exact ih (applyOp db op) hstep hrest
  exact gen ops (seededDb now) (seededDb_nonneg now) h

/-- Witness for C6: a create with availability 0 followed by a decrement of the
first seeded lesson by `10 ^ 30`; the hypothesis holds for this sequence and
every availability of the resulting store is `>= 0`. -/
theorem availability_never_negative_witness :
    (applyOps (seededDb 0)
        [.create 1 zeroPayload, .adjust (some 0) (-(10 ^ 30))]).lessons.all
      (fun d => decide (0 ≤ d.availability)) = true :=
  List.all_eq_true.mpr (fun d hd => decide_eq_true
    (availability_never_negative 0 [.create 1 zeroPayload, .adjust (some 0) (-(10 ^ 30))]
      (by
        intro t body a hm ha
        simp at hm
        rcases hm with ⟨_, hb⟩
        subst hb
        simp [zeroPayload] at ha
        omega)
      d hd))

/-- Counterexample to C6 as stated: the create-lesson request with availability
`-5` is accepted with status 201 and the stored lesson has availability `-5`. -/
theorem create_negative_availability :
    (postLesson true 1 (seededDb 0) negativePayload).1.status = 201 ∧
    (applyOps (seededDb 0) [.create 1 negativePayload]).lessons.map
        (fun d => d.availability) = [5, 3, 8, 2, 6, 4, 3, 7, 5, 4, -5] := by
  decide

end Server

end LessonApp

/-! ## Properties of the cart and checkout controller -/

namespace LessonApp

namespace Client

theorem findIndex_eq_none {α : Type} (p : α → Bool) (l : List α) :
    findIndex p l = none ↔ ∀ x ∈ l, p x = false := by
  induction l with
  | nil => simp [findIndex]
  | cons a as ih =>
    by_cases ha : p a = true
    · simp [findIndex, ha]
    · have ha' : p a = false := by simpa using ha
      simp [findIndex, ha', ih]

theorem findIndex_eq_some {α : Type} (p : α → Bool) (l : List α) (i : Nat)
    (h : findIndex p l = some i) :
    ∃ before x after, l = before ++ x :: after ∧ before.length = i ∧ p x = true ∧
      ∀ y ∈ before, p y = false := by
  induction l generalizing i with
  | nil => simp [findIndex] at h
  | cons a as ih =>
    by_cases ha : p a = true
    · simp [findIndex, ha] at h
      exact ⟨[], a, as, rfl, by simpa using h, ha, by simp⟩
    · have ha' : p a = false := by simpa using ha
      simp [findIndex, ha'] at h
      obtain ⟨j, hj, hij⟩ := h
      obtain ⟨before, x, after, hl, hlen, hx, hb⟩ := ih j hj
      refine ⟨a :: before, x, after, by rw [hl]; rfl, by simp [hlen, hij], hx, ?_⟩
      intro y hy
      rcases List.mem_cons.mp hy with h1 | h1
      · rw [h1]; exact ha'
      · exact hb y h1

theorem findIndex_append_cons {α : Type} (p : α → Bool) (before : List α) (x : α)
    (after : List α) (hx : p x = true) (hb : ∀ y ∈ before, p y = false) :
    findIndex p (before ++ x :: after) = some before.length := by
  induction before with
  | nil => simp [findIndex, hx]
  | cons a as ih =>
    have ha : p a = false := hb a (List.mem_cons_self _ _)
    have ih1 := ih (fun y hy => hb y (List.mem_cons_of_mem _ hy))
    simp [findIndex, ha, ih1]

theorem modify_append_cons {α : Type} (f : α → α) (before : List α) (x : α) (after : List α) :
    (before ++ x :: after).modify f before.length = before ++ f x :: after := by
  induction before with
  | nil => simp
  | cons a as ih => simp [ih]

theorem eraseIdx_append_cons {α : Type} (before : List α) (x : α) (after : List α) :
    (before ++ x :: after).eraseIdx before.length = before ++ after := by
  induction before with
  | nil => simp
  | cons a as ih => simp [ih]

/-- What `addToCart` does when the lesson is available and not yet in the
cart, in terms of the position of the first entry of `lessons` with its id. -/
theorem addToCart_of_new (s : State) (lesson : Lesson) (ha : 0 < lesson.availability)
    (hc : ∀ item ∈ s.cartItems, item._id ≠ lesson._id) :
    (addToCart s lesson).cartItems = s.cartItems ++ [lesson] ∧
    (addToCart s lesson).orders = s.orders ∧
    (addToCart s lesson).orderForm = s.orderForm ∧
    (addToCart s lesson).currentView = s.currentView ∧
    (((∀ l ∈ s.lessons, l._id ≠ lesson._id) ∧ (addToCart s lesson).lessons = s.lessons) ∨
      ∃ before entry after, s.lessons = before ++ entry :: after ∧
        entry._id = lesson._id ∧ (∀ l ∈ before, l._id ≠ lesson._id) ∧
        (addToCart s lesson).lessons =
          before ++ { entry with availability := entry.availability - 1 } :: after) := by
  have hfind : s.cartItems.find? (fun item => item._id == lesson._id) = none := by
    rw [List.find?_eq_none]
    intro x hx
    simpa using hc x hx
  unfold addToCart
  rw [if_pos ha, hfind]
  cases hidx : findIndex (fun l => l._id == lesson._id) s.lessons with
  | none =>
    refine ⟨rfl, rfl, rfl, rfl, Or.inl ⟨?_, rfl⟩⟩
    intro l hl
    have := (findIndex_eq_none _ _).mp hidx l hl
    simpa using this
  | some i =>
    obtain ⟨before, entry, after, hl, hlen, hx, hb⟩ := findIndex_eq_some _ _ _ hidx
    refine ⟨rfl, rfl, rfl, rfl, Or.inr ⟨before, entry, after, hl, by simpa using hx, ?_, ?_⟩⟩
    · intro l hl'
      simpa using hb l hl'
    · simp only
      rw [hl, ← hlen, modify_append_cons]

/-- The method `addToCart` changes nothing when the lesson is sold out or
already in the cart. -/
theorem addToCart_of_blocked (s : State) (lesson : Lesson)
    (h : lesson.availability ≤ 0 ∨ ∃ item ∈ s.cartItems, item._id = lesson._id) :
    addToCart s lesson = s := by
  unfold addToCart
  rcases h with h | ⟨item, hmem, hid⟩
  · rw [if_neg (by omega)]
  · split
    · cases hf : s.cartItems.find? (fun item => item._id == lesson._id) with
      | none =>
        rw [List.find?_eq_none] at hf
        have := hf item hmem
        simp [hid] at this
      | some _ => rfl
    · rfl

theorem updateAll_requests (net : Nat → FetchResult Lesson) (items : List Lesson) (k : Nat)
    (fx : Effects) :
    (updateAll net items k fx).requests =
      fx.requests ++ items.map (fun item => Request.putAvailability item._id (-1)) := by
  induction items generalizing k fx with
  | nil => simp [updateAll]
  | cons item rest ih =>
    rw [updateAll, ih]
    cases net k <;> simp [updateLessonAvailability]

theorem cartTotal_eq_foldl (s : State) :
    cartTotal s =
      (s.cartItems.map (fun item => item.price)).foldl JsNumber.add (JsNumber.ofInt 0) := by
  unfold cartTotal
  rw [List.foldl_map]

theorem length_ne_zero_of_ne_nil {α : Type} (l : List α) (h : l ≠ []) : ¬ l.length = 0 := by
  cases l with
  | nil => exact absurd rfl h
  | cons a as => simp

/-- C2: `addToCart` leaves the state unchanged when the lesson's availability is
`<= 0` or its id is already in the cart; otherwise it appends the lesson to
the cart, keeps orders and order form, and decreases by one the availability
of the first entry of `lessons` with the same id, every other entry staying as
it was (nothing changes in `lessons` when no entry has that id). -/
theorem addToCart_spec (s : State) (lesson : Lesson) :
    ((lesson.availability ≤ 0 ∨ ∃ item ∈ s.cartItems, item._id = lesson._id) →
      addToCart s lesson = s) ∧
    ((0 < lesson.availability ∧ ∀ item ∈ s.cartItems, item._id ≠ lesson._id) →
      (addToCart s lesson).cartItems = s.cartItems ++ [lesson] ∧
      (addToCart s lesson).orders = s.orders ∧
      (addToCart s lesson).orderForm = s.orderForm ∧
      (addToCart s lesson).currentView = s.currentView ∧
      (((∀ l ∈ s.lessons, l._id ≠ lesson._id) ∧ (addToCart s lesson).lessons = s.lessons) ∨
        ∃ before entry after, s.lessons = before ++ entry :: after ∧
          entry._id = lesson._id ∧ (∀ l ∈ before, l._id ≠ lesson._id) ∧
          (addToCart s lesson).lessons =
            before ++ { entry with availability := entry.availability - 1 } :: after)) :=
  ⟨addToCart_of_blocked s lesson, fun h => addToCart_of_new s lesson h.1 h.2⟩

/-- Witness for C2: a sold-out lesson is not added; an available lesson is
added to the empty cart and its entry goes from 5 to 4. -/
theorem addToCart_spec_witness :
    addToCart catalog soldOut = catalog ∧
    (addToCart catalog maths).cartItems = catalog.cartItems ++ [maths] ∧
    (addToCart catalog maths).lessons = [{ maths with availability := 4 }, english] :=
  ⟨(addToCart_spec catalog soldOut).1 (Or.inl (by decide)),
   ((addToCart_spec catalog maths).2 ⟨by decide, by decide⟩).1,
   by decide⟩

/-- C3: for a non-empty cart and a successful order POST, `checkout` sends,
after the POST, exactly one availability request with change `-1` per cart
item, in cart order, whatever the outcomes `net` of these requests; afterwards
the created order is the head of `orders`, the cart is empty and the form's
name and phone are empty. -/
theorem checkout_success (s : State) (newOrder : Order) (net : Nat → FetchResult Lesson)
    (h : s.cartItems ≠ []) :
    (checkout (.response true (some newOrder)) net s).2.requests =
      Request.postOrder (orderData s) ::
        s.cartItems.map (fun item => Request.putAvailability item._id (-1)) ∧
    (checkout (.response true (some newOrder)) net s).1.orders = newOrder :: s.orders ∧
    (checkout (.response true (some newOrder)) net s).1.cartItems = [] ∧
    (checkout (.response true (some newOrder)) net s).1.orderForm =
      { name := "", phone := "" } ∧
    (checkout (.response true (some newOrder)) net s).1.lessons = s.lessons := by
  unfold checkout
  rw [if_neg (length_ne_zero_of_ne_nil _ h)]
  simp [updateAll_requests, Effects.none]

/-- Witness for C3: two cart items, the first availability call rejected, the
second answered with an error status. -/
theorem checkout_success_witness :
    (checkout (.response true (some receipt)) flakyNet twoInCart).2.requests =
      [Request.postOrder (orderData twoInCart), Request.putAvailability "1" (-1),
       Request.putAvailability "2" (-1)] ∧
    (checkout (.response true (some receipt)) flakyNet twoInCart).1.orders = [receipt] ∧
    (checkout (.response true (some receipt)) flakyNet twoInCart).1.cartItems = [] :=
  ⟨(checkout_success twoInCart receipt flakyNet (by decide)).1,
   (checkout_success twoInCart receipt flakyNet (by decide)).2.1,
   (checkout_success twoInCart receipt flakyNet (by decide)).2.2.1⟩

/-- C4, as amended: for a non-empty cart the first request of `checkout` is the
order POST whose body has one line item per cart item, in cart order, made of
that item's id, subject, location and price, and has `total` equal to the sum
of the cart items' prices taken from the left in double arithmetic, starting
from 0. This total is the exact sum when the prices are integers whose partial
sums all stay below `2 ^ 53` in magnitude. With two cart items there are two
line items and the total is the double sum of the two prices. -/
theorem checkout_orderData (s : State) (post : FetchResult Order)
    (net : Nat → FetchResult Lesson) (h : s.cartItems ≠ []) :
    (checkout post net s).2.requests.head? = some (Request.postOrder (orderData s)) ∧
    (orderData s).name = s.orderForm.name ∧
    (orderData s).phone = s.orderForm.phone ∧
    (orderData s).total =
      (s.cartItems.map (fun item => item.price)).foldl JsNumber.add (JsNumber.ofInt 0) ∧
    (∀ prices : List Int,
      s.cartItems.map (fun item => item.price) = prices.map JsNumber.ofInt →
      (∀ i, i ≤ prices.length → ((prices.take i).sum).natAbs < 2 ^ 53) →
      (orderData s).total = JsNumber.ofInt prices.sum) ∧
    (orderData s).lessons.length = s.cartItems.length ∧
    (∀ i (hi : i < s.cartItems.length),
      (orderData s).lessons[i]? =
        some { _id := s.cartItems[i]._id, subject := s.cartItems[i].subject,
               location := s.cartItems[i].location, price := s.cartItems[i].price }) ∧
    (∀ a b, s.cartItems = [a, b] → a.price.isDouble = true →
      (orderData s).lessons.length = 2 ∧ (orderData s).total = a.price.add b.price) := by
  refine ⟨?_, rfl, rfl, cartTotal_eq_foldl s, ?_, by simp [orderData], ?_, ?_⟩
  · unfold checkout
    rw [if_neg (length_ne_zero_of_ne_nil _ h)]
    rcases post with _ | ⟨ok, json⟩
    · simp [Effects.none]
    · cases ok
      · simp [Effects.none]
      · cases json
        · simp [Effects.none]
        · simp [updateAll_requests, Effects.none]
  · intro prices hprices hsafe
    show cartTotal s = _
    rw [cartTotal_eq_foldl, hprices, JsNumber.foldl_add_ofInt prices 0
      (fun i hi => by simpa using hsafe i hi)]
    simp
  · intro i hi
    simp [orderData, List.getElem?_map, List.getElem?_eq_getElem hi]
  · intro a b hab ha
    refine ⟨by simp [orderData, hab], ?_⟩
    show cartTotal s = _
    unfold cartTotal
    rw [hab, List.foldl_cons, List.foldl_cons, List.foldl_nil, JsNumber.ofInt_zero_add _ ha]

/-- Witness for C4: the cart with Mathematics (25) and English (20). -/
theorem checkout_orderData_witness :
    (checkout .networkError flakyNet twoInCart).2.requests.head? =
      some (Request.postOrder (orderData twoInCart)) ∧
    (orderData twoInCart).total = JsNumber.ofInt [25, 20].sum ∧
    ((orderData twoInCart).lessons.length = 2 ∧
      (orderData twoInCart).total = maths.price.add english.price) ∧
    (orderData twoInCart).lessons =
      [{ _id := "1", subject := "Mathematics", location := "London", price := .ofInt 25 },
       { _id := "2", subject := "English", location := "Manchester", price := .ofInt 20 }] :=
  ⟨(checkout_orderData twoInCart .networkError flakyNet (by decide)).1,
   (checkout_orderData twoInCart .networkError flakyNet (by decide)).2.2.2.2.1
     [25, 20] (by decide) (by decide),
   (checkout_orderData twoInCart .networkError flakyNet (by decide)).2.2.2.2.2.2.2
     maths english (by decide) (by decide),
   by decide⟩

/-- Counterexample to C4 as stated. With cart prices `2 ^ 53` and 1 the order
request has total `2 ^ 53`, not the sum `2 ^ 53 + 1`. With cart prices 0.1, 0.2
and 0.3 it has total `1351079888211149 / 2 ^ 51`, the double printed as
0.6000000000000001, not `5404319552844595 / 2 ^ 53`, the double nearest to the
sum 0.6. -/
theorem orderData_total_not_sum :
    (costlyCart.cartItems.map (fun item => item.price) =
        [JsNumber.ofInt (2 ^ 53), JsNumber.ofInt 1] ∧
      (orderData costlyCart).total = JsNumber.ofInt (2 ^ 53) ∧
      JsNumber.ofInt (2 ^ 53) ≠ JsNumber.ofInt (2 ^ 53 + 1)) ∧
    (pennyCart.cartItems.map (fun item => item.price) =
        [JsNumber.ofBinary 3602879701896397 55, JsNumber.ofBinary 3602879701896397 54,
         JsNumber.ofBinary 5404319552844595 54] ∧
      (orderData pennyCart).total = JsNumber.ofBinary 1351079888211149 51 ∧
      JsNumber.ofBinary 1351079888211149 51 ≠ JsNumber.ofBinary 5404319552844595 53) := by
  decide

theorem removeFromCart_of_split (s : State) (lessonId : String) (before : List Lesson)
    (x : Lesson) (after : List Lesson) (hc : s.cartItems = before ++ x :: after)
    (hx : x._id = lessonId) (hb : ∀ y ∈ before, y._id ≠ lessonId) :
    (removeFromCart s lessonId).cartItems = before ++ after ∧
    (((∀ l ∈ s.lessons, l._id ≠ lessonId) ∧ (removeFromCart s lessonId).lessons = s.lessons) ∨
      ∃ front entry back, s.lessons = front ++ entry :: back ∧
        entry._id = lessonId ∧ (∀ l ∈ front, l._id ≠ lessonId) ∧
        (removeFromCart s lessonId).lessons =
          front ++ { entry with availability := entry.availability + 1 } :: back) := by
  have hidx : findIndex (fun item => item._id == lessonId) s.cartItems = some before.length := by
    rw [hc]
    exact findIndex_append_cons _ before x after (by simpa using hx)
      (fun y hy => by simpa using hb y hy)
  unfold removeFromCart
  rw [hidx]
  refine ⟨by simp only [hc, eraseIdx_append_cons], ?_⟩
  cases hl : findIndex (fun l => l._id == lessonId) s.lessons with
  | none =>
    refine Or.inl ⟨?_, rfl⟩
    intro l hmem
    simpa using (findIndex_eq_none _ _).mp hl l hmem
  | some i =>
    obtain ⟨front, entry, back, hsplit, hlen, he, hf⟩ := findIndex_eq_some _ _ _ hl
    refine Or.inr ⟨front, entry, back, hsplit, by simpa using he,
      fun l hmem => by simpa using hf l hmem, ?_⟩
    simp only
    rw [hsplit, ← hlen, modify_append_cons]

theorem removeFromCart_of_absent (s : State) (lessonId : String)
    (h : ∀ item ∈ s.cartItems, item._id ≠ lessonId) : removeFromCart s lessonId = s := by
  have hidx : findIndex (fun item => item._id == lessonId) s.cartItems = none :=
    (findIndex_eq_none _ _).mpr (fun x hx => by simpa using h x hx)
  unfold removeFromCart
  rw [hidx]

theorem exists_split_of_mem (cart : List Lesson) (item : Lesson) (h : item ∈ cart) :
    ∃ before x after, cart = before ++ x :: after ∧ x._id = item._id ∧
      ∀ y ∈ before, y._id ≠ item._id := by
  cases hidx : findIndex (fun y => y._id == item._id) cart with
  | none =>
    have := (findIndex_eq_none _ _).mp hidx item h
    simp at this
  | some i =>
    obtain ⟨before, x, after, hsplit, _, hx, hb⟩ := findIndex_eq_some _ _ _ hidx
    exact ⟨before, x, after, hsplit, by simpa using hx, fun y hy => by simpa using hb y hy⟩

theorem cart_step_nodup (s : State) (op : CartOp)
    (h : (s.cartItems.map (fun item => item._id)).Nodup) :
    ((applyCartOp s op).cartItems.map (fun item => item._id)).Nodup := by
  cases op with
  | add lesson =>
    simp only [applyCartOp]
    by_cases hb : lesson.availability ≤ 0 ∨ ∃ item ∈ s.cartItems, item._id = lesson._id
    · rw [addToCart_of_blocked s lesson hb]; exact h
    · have hpos : 0 < lesson.availability := by
        by_contra hn
        exact hb (Or.inl (by omega))
      have hnew : ∀ item ∈ s.cartItems, item._id ≠ lesson._id :=
        fun item hm he => hb (Or.inr ⟨item, hm, he⟩)
      rw [(addToCart_of_new s lesson hpos hnew).1, List.map_append, List.nodup_append]
      refine ⟨h, by simp, ?_⟩
      intro a ha hb'
      simp only [List.map_cons, List.map_nil, List.mem_singleton] at hb'
      obtain ⟨item, hm, he⟩ := List.mem_map.mp ha
      exact hnew item hm (he.trans hb')
  | remove lessonId =>
    simp only [applyCartOp]
    by_cases hb : ∀ item ∈ s.cartItems, item._id ≠ lessonId
    · rw [removeFromCart_of_absent s lessonId hb]; exact h
    · have hex : ∃ item, item ∈ s.cartItems ∧ item._id = lessonId := by
        by_contra hn
        exact hb (fun item hm he => hn ⟨item, hm, he⟩)
      obtain ⟨item, hm, he⟩ := hex
      obtain ⟨before, x, after, hsplit, hx, hbf⟩ := exists_split_of_mem s.cartItems item hm
      rw [(removeFromCart_of_split s lessonId before x after hsplit (hx.trans he)
        (fun y hy => by rw [← he]; exact hbf y hy)).1]
      rw [hsplit] at h
      refine List.Nodup.sublist ?_ h
      exact List.Sublist.map _ (List.Sublist.append_left (List.sublist_cons_self x after) before)

/-- C7: `addToCart` with a lesson whose id is already in the cart returns the
state unchanged, so the cart size and every local availability stay as they
were; calling `addToCart` twice in a row with the same lesson, also when the
second call sees its availability lowered by the first, gives the state of
calling it once. -/
theorem addToCart_idempotent (s : State) (lesson : Lesson) :
    ((∃ item ∈ s.cartItems, item._id = lesson._id) →
      addToCart s lesson = s ∧
      (addToCart s lesson).cartItems.length = s.cartItems.length ∧
      (addToCart s lesson).lessons.map (fun l => l.availability) =
        s.lessons.map (fun l => l.availability)) ∧
    addToCart (addToCart s lesson) lesson = addToCart s lesson ∧
    (∀ again : Lesson, again._id = lesson._id → again.availability ≤ lesson.availability →
      addToCart (addToCart s lesson) again = addToCart s lesson) := by
  have twice : ∀ again : Lesson, again._id = lesson._id →
      again.availability ≤ lesson.availability →
      addToCart (addToCart s lesson) again = addToCart s lesson := by
    intro again hid hle
    by_cases hb : lesson.availability ≤ 0 ∨ ∃ item ∈ s.cartItems, item._id = lesson._id
    · rw [addToCart_of_blocked s lesson hb]
      apply addToCart_of_blocked
      rcases hb with hb | ⟨item, hm, he⟩
      · exact Or.inl (le_trans hle hb)
      · exact Or.inr ⟨item, hm, he.trans hid.symm⟩
    · have hpos : 0 < lesson.availability := by
        by_contra hn
        exact hb (Or.inl (by omega))
      have hnew : ∀ item ∈ s.cartItems, item._id ≠ lesson._id :=
        fun item hm he => hb (Or.inr ⟨item, hm, he⟩)
      apply addToCart_of_blocked
      refine Or.inr ⟨lesson, ?_, hid.symm⟩
      rw [(addToCart_of_new s lesson hpos hnew).1]
      simp
  refine ⟨?_, twice lesson rfl (le_refl _), twice⟩
  intro h
  have he := addToCart_of_blocked s lesson (Or.inr h)
  rw [he]
  exact ⟨rfl, rfl, rfl⟩

/-- Witness for C7: Mathematics is in the cart of `twoInCart`; on `catalog`
a second call with the entry lowered to 4 changes nothing more. -/
theorem addToCart_idempotent_witness :
    addToCart twoInCart maths = twoInCart ∧
    (addToCart twoInCart maths).cartItems.length = 2 ∧
    addToCart (addToCart catalog maths) { maths with availability := 4 } =
      addToCart catalog maths :=
  ⟨((addToCart_idempotent twoInCart maths).1 ⟨maths, by decide, rfl⟩).1,
   ((addToCart_idempotent twoInCart maths).1 ⟨maths, by decide, rfl⟩).2.1,
   (addToCart_idempotent catalog maths).2.2 { maths with availability := 4 } rfl
     (by decide)⟩

theorem cart_step_available (s : State) (op : CartOp)
    (h : ∀ item ∈ s.cartItems, 0 < item.availability) :
    ∀ item ∈ (applyCartOp s op).cartItems, 0 < item.availability := by
  cases op with
  | add lesson =>
    simp only [applyCartOp]
    by_cases hb : lesson.availability ≤ 0 ∨ ∃ item ∈ s.cartItems, item._id = lesson._id
    · rw [addToCart_of_blocked s lesson hb]; exact h
    · have hpos : 0 < lesson.availability := by
        by_contra hn
        exact hb (Or.inl (by omega))
      have hnew : ∀ item ∈ s.cartItems, item._id ≠ lesson._id :=
        fun item hm he => hb (Or.inr ⟨item, hm, he⟩)
      rw [(addToCart_of_new s lesson hpos hnew).1]
      intro item hm
      rcases List.mem_append.mp hm with h1 | h1
      · exact h item h1
      · rw [List.mem_singleton.mp h1]; exact hpos
  | remove lessonId =>
    simp only [applyCartOp]
    by_cases hb : ∀ item ∈ s.cartItems, item._id ≠ lessonId
    · rw [removeFromCart_of_absent s lessonId hb]; exact h
    · have hex : ∃ item, item ∈ s.cartItems ∧ item._id = lessonId := by
        by_contra hn
        exact hb (fun item hm he => hn ⟨item, hm, he⟩)
      obtain ⟨item, hm, he⟩ := hex
      obtain ⟨before, x, after, hsplit, hx, hbf⟩ := exists_split_of_mem s.cartItems item hm
      rw [(removeFromCart_of_split s lessonId before x after hsplit (hx.trans he)
        (fun y hy => by rw [← he]; exact hbf y hy)).1]
      intro y hy
      apply h y
      rw [hsplit]
      rcases List.mem_append.mp hy with h1 | h1
      · exact List.mem_append_left _ h1
      · exact List.mem_append_right _ (List.mem_cons_of_mem _ h1)

/-- In every state built from an empty cart by `addToCart` and `removeFromCart`
calls the cart has no repeated id and every cart item has availability `> 0`. -/
theorem cart_invariant (s : State) (h : s.cartItems = []) (ops : List CartOp) :
    ((applyCartOps s ops).cartItems.map (fun item => item._id)).Nodup ∧
    ∀ item ∈ (applyCartOps s ops).cartItems, 0 < item.availability := by
  have gen : ∀ (ops : List CartOp) (t : State),
      ((t.cartItems.map (fun item => item._id)).Nodup ∧
        ∀ item ∈ t.cartItems, 0 < item.availability) →
      ((applyCartOps t ops).cartItems.map (fun item => item._id)).Nodup ∧
        ∀ item ∈ (applyCartOps t ops).cartItems, 0 < item.availability := by
    intro ops
    induction ops with
    | nil => intro t ht; exact ht
    | cons op rest ih =>
      intro t ht
      exact ih (applyCartOp t op) ⟨cart_step_nodup t op ht.1, cart_step_available t op ht.2⟩
  exact gen ops s (by rw [h]; exact ⟨List.nodup_nil, by simp⟩)

/-- In a cart without repeated ids, `removeFromCart` of a cart item's id
followed by `addToCart` of a lesson with that id and availability `> 0` gives
back the `lessons` list of before the removal. -/
theorem remove_then_add_lessons (s : State) (item lesson : Lesson)
    (hmem : item ∈ s.cartItems) (hid : lesson._id = item._id)
    (hpos : 0 < lesson.availability)
    (hnodup : (s.cartItems.map (fun x => x._id)).Nodup) :
    (addToCart (removeFromCart s item._id) lesson).lessons = s.lessons ∧
    localAvailability (addToCart (removeFromCart s item._id) lesson) item._id =
      localAvailability s item._id := by
  obtain ⟨before, x, after, hsplit, hx, hbf⟩ := exists_split_of_mem s.cartItems item hmem
  obtain ⟨hcart, hless⟩ := removeFromCart_of_split s item._id before x after hsplit hx hbf
  have hafter : ∀ y ∈ after, y._id ≠ item._id := by
    intro y hy he
    rw [hsplit, List.map_append, List.map_cons, List.nodup_append] at hnodup
    have hxs := (List.nodup_cons.mp hnodup.2.1).1
    apply hxs
    rw [hx, ← he]
    exact List.mem_map_of_mem _ hy
  have hnew : ∀ y ∈ (removeFromCart s item._id).cartItems, y._id ≠ lesson._id := by
    intro y hy
    rw [hcart] at hy
    rw [hid]
    rcases List.mem_append.mp hy with h1 | h1
    · exact hbf y h1
    · exact hafter y h1
  have hadd := (addToCart_of_new (removeFromCart s item._id) lesson hpos hnew).2.2.2.2
  have hlessons : (addToCart (removeFromCart s item._id) lesson).lessons = s.lessons := by
    rcases hless with ⟨hnone, hsame⟩ | ⟨front, entry, back, hl, he, hf, hrem⟩
    · rcases hadd with ⟨_, h2⟩ | ⟨b2, e2, a2, h2, he2, _, _⟩
      · rw [h2, hsame]
      · exfalso
        rw [hsame] at h2
        exact hnone e2 (by rw [h2]; simp) (he2.trans hid)
    · rcases hadd with ⟨h1, _⟩ | ⟨b2, e2, a2, h2, he2, hb2, hres⟩
      · exfalso
        refine h1 { entry with availability := entry.availability + 1 } ?_ (he.trans hid.symm)
        rw [hrem]; simp
      · have hidx1 := findIndex_append_cons (fun l : Lesson => l._id == lesson._id) front
          { entry with availability := entry.availability + 1 } back
          (by simpa using he.trans hid.symm)
          (fun y hy => by rw [hid]; simpa using hf y hy)
        have hidx2 := findIndex_append_cons (fun l : Lesson => l._id == lesson._id) b2 e2 a2
          (by simpa using he2) (fun y hy => by simpa using hb2 y hy)
        rw [← hrem, h2, hidx2] at hidx1
        have hlen : b2.length = front.length := by simpa using hidx1
        rw [hrem] at h2
        have hb : front = b2 := List.append_inj_left h2 hlen.symm
        subst hb
        have hrest := List.append_cancel_left h2
        rw [List.cons.injEq] at hrest
        rw [hres, hl, ← hrest.1, ← hrest.2]
        simp
  exact ⟨hlessons, by unfold localAvailability; rw [hlessons]⟩

/-- C8: in every client state, that is every state built from an empty cart by
`addToCart` and `removeFromCart` calls, and for every lesson that is in the
cart, `removeFromCart` of its id followed by `addToCart` of the same lesson
restores that lesson's local availability in the `lessons` list to the value
it had before the removal; the whole list is as before. The same holds when
`addToCart` is given any lesson with that id and availability `> 0`. -/
theorem remove_then_add_restores (s : State) (h : s.cartItems = []) (ops : List CartOp)
    (item : Lesson) (hmem : item ∈ (applyCartOps s ops).cartItems) :
    localAvailability (addToCart (removeFromCart (applyCartOps s ops) item._id) item)
        item._id = localAvailability (applyCartOps s ops) item._id ∧
    (addToCart (removeFromCart (applyCartOps s ops) item._id) item).lessons =
      (applyCartOps s ops).lessons ∧
    (∀ lesson : Lesson, lesson._id = item._id → 0 < lesson.availability →
      localAvailability (addToCart (removeFromCart (applyCartOps s ops) item._id) lesson)
        item._id = localAvailability (applyCartOps s ops) item._id) := by
  obtain ⟨hnodup, hpos⟩ := cart_invariant s h ops
  have hitem := remove_then_add_lessons (applyCartOps s ops) item item hmem rfl
    (hpos item hmem) hnodup
  exact ⟨hitem.2, hitem.1, fun lesson hid hav =>
    (remove_then_add_lessons (applyCartOps s ops) item lesson hmem hid hav hnodup).2⟩

/-- Witness for C8: after adding Mathematics and English to the empty cart of
`catalog`, Mathematics is removed and added again; its local availability is 4
before and after. -/
theorem remove_then_add_restores_witness :
    localAvailability (applyCartOps catalog [.add maths, .add english]) maths._id = some 4 ∧
    localAvailability
      (addToCart (removeFromCart (applyCartOps catalog [.add maths, .add english]) maths._id)
        maths) maths._id =
      localAvailability (applyCartOps catalog [.add maths, .add english]) maths._id ∧
    localAvailability
      (addToCart (removeFromCart (applyCartOps catalog [.add maths, .add english]) maths._id)
        { maths with availability := 5 - 1 + 1 }) maths._id =
      localAvailability (applyCartOps catalog [.add maths, .add english]) maths._id :=
  ⟨by decide,
   (remove_then_add_restores catalog rfl [.add maths, .add english] maths (by decide)).1,
   (remove_then_add_restores catalog rfl [.add maths, .add english] maths (by decide)).2.2
     { maths with availability := 5 - 1 + 1 } rfl (by decide)⟩

/-- C9: starting from a state with an empty cart, after every sequence of
`addToCart` and `removeFromCart` calls no two cart items have the same id. -/
theorem cart_ids_unique (s : State) (h : s.cartItems = []) (ops : List CartOp) :
    ((applyCartOps s ops).cartItems.map (fun item => item._id)).Nodup := by
  have gen : ∀ (ops : List CartOp) (t : State),
      (t.cartItems.map (fun item => item._id)).Nodup →
      ((applyCartOps t ops).cartItems.map (fun item => item._id)).Nodup := by
    intro ops
    induction ops with
    | nil => intro t ht; exact ht
    | cons op rest ih => intro t ht; exact ih (applyCartOp t op) (cart_step_nodup t op ht)
  exact gen ops s (by rw [h]; exact List.nodup_nil)

/-- Witness for C9: adding Mathematics twice, then English, then removing and
re-adding Mathematics leaves the ids `2`, `1`. -/
theorem cart_ids_unique_witness :
    ((applyCartOps catalog
        [.add maths, .add maths, .add english, .remove "1", .add maths]).cartItems.map
      (fun item => item._id)).Nodup ∧
    (applyCartOps catalog
        [.add maths, .add maths, .add english, .remove "1", .add maths]).cartItems.map
      (fun item => item._id) = ["2", "1"] :=
  ⟨cart_ids_unique catalog rfl _, by decide⟩

/-- C10: for a non-empty cart, when the order POST fails (the fetch is rejected
or the response is not ok), `checkout` sends no request besides the POST and
returns the state unchanged: cart, order form, orders and local lessons are
as before the call. -/
theorem checkout_post_failure (s : State) (post : FetchResult Order)
    (net : Nat → FetchResult Lesson) (h : s.cartItems ≠ [])
    (hfail : post = .networkError ∨ ∃ json, post = .response false json) :
    (checkout post net s).1 = s ∧
    (checkout post net s).2.requests = [Request.postOrder (orderData s)] := by
  unfold checkout
  rw [if_neg (length_ne_zero_of_ne_nil _ h)]
  rcases hfail with hp | ⟨json, hp⟩ <;> subst hp <;> simp [Effects.none]

/-- Witness for C10: the cart of `twoInCart` with a rejected POST; the local
availability of Mathematics stays at 4. -/
theorem checkout_post_failure_witness :
    (checkout .networkError flakyNet twoInCart).1 = twoInCart ∧
    (checkout .networkError flakyNet twoInCart).2.requests =
      [Request.postOrder (orderData twoInCart)] ∧
    localAvailability (checkout .networkError flakyNet twoInCart).1 "1" = some 4 :=
  ⟨(checkout_post_failure twoInCart .networkError flakyNet (by decide) (Or.inl rfl)).1,
   (checkout_post_failure twoInCart .networkError flakyNet (by decide) (Or.inl rfl)).2,
   by decide⟩

end Client

end LessonApp
